import Mathlib

/-!
Verification development for the RegNido presence-event synchronization core.

Shallow embedding of:
- `src/server/app/crud.py` (`create_presence_event`);
- `src/server/app/main.py` (`sync`, `compute_presence_summary`);
- `src/clients/desktop-python/regnido_client/storage/local_store.py` (`LocalStore`);
- `src/clients/desktop-python/regnido_client/ui/main_window.py`
  (`MainWindow._submit_presence_event`, `MainWindow._sync_pending`).

Timestamps are modelled as integers (whole seconds), identifiers as naturals.
The SQLAlchemy session is modelled as an explicit `Db` record holding the
device, child and presence tables as lists in insertion order; raising an
`HTTPException` is modelled with `Except`.  The wall clock
(`datetime.now(timezone.utc)`) is passed in explicitly as a `now` argument.
-/

/-- The two presence event types (`PresenceEventType` in `models.py`). -/
inductive PresenceEventType where
  | ENTRATA
  | USCITA
deriving DecidableEq, Repr

/-- The opposite event type; used only in statements about alternation. -/
def PresenceEventType.flip : PresenceEventType → PresenceEventType
  | .ENTRATA => .USCITA
  | .USCITA => .ENTRATA

/-- A row of the `dispositivi` table (only the columns ingestion reads). -/
structure Dispositivo where
  id : Nat
  sede_id : Nat
  attivo : Bool
deriving DecidableEq, Repr

/-- A row of the `bambini` table (only the columns ingestion reads). -/
structure Bambino where
  id : Nat
  sede_id : Nat
  attivo : Bool
deriving DecidableEq, Repr

/-- A row of the `presenze` table, mirroring the `Presenza` model fields that
`crud.create_presence_event` writes. -/
structure Presenza where
  bambino_id : Nat
  sede_id : Nat
  dispositivo_id : Nat
  tipo_evento : PresenceEventType
  timestamp_evento : Int
  creato_da : Nat
  client_event_id : Nat
  synced_at : Int
deriving DecidableEq, Repr

/-- The database state visible to the ingestion path. -/
structure Db where
  dispositivi : List Dispositivo
  bambini : List Bambino
  presenze : List Presenza
deriving DecidableEq, Repr

/-- The `HTTPException`s that `create_presence_event` can raise. -/
inductive IngestError where
  | dispositivoNotFound
  | bambinoNotFound
  | consecutiveSameType
  | uscitaSenzaEntrata
deriving DecidableEq, Repr

/-- HTTP status code carried by each `HTTPException` in `crud.py`. -/
def IngestError.status : IngestError → Nat
  | .dispositivoNotFound => 404
  | .bambinoNotFound => 404
  | .consecutiveSameType => 400
  | .uscitaSenzaEntrata => 400

/-- The events of `log` for a fixed child and site, in stored order: the SQL
filter `Presenza.bambino_id == b AND Presenza.sede_id == s`. -/
def pairLog (log : List Presenza) (b s : Nat) : List Presenza :=
  log.filter (fun p => p.bambino_id == b && p.sede_id == s)

/-- Model of `ORDER BY timestamp_evento DESC` + `db.scalar` (first row): an event of
maximal `timestamp_evento`, or `none` on an empty list. -/
def latestEvent : List Presenza → Option Presenza
  | [] => none
  | p :: ps =>
    match latestEvent ps with
    | none => some p
    | some q => if q.timestamp_evento > p.timestamp_evento then some q else some p

/-- The tail of `crud.create_presence_event` once validation has passed: build
the `Presenza` row (stamping `synced_at := now`) and append it to the log. -/
def persistEvent (db : Db) (sede_id : Nat) (tipo : PresenceEventType)
    (bambino_id dispositivo_id client_event_id : Nat)
    (timestamp_evento : Int) (creato_da : Nat) (now : Int) : Presenza × Db :=
  let presenza : Presenza :=
    { bambino_id := bambino_id
      sede_id := sede_id
      dispositivo_id := dispositivo_id
      tipo_evento := tipo
      timestamp_evento := timestamp_evento
      creato_da := creato_da
      client_event_id := client_event_id
      synced_at := now }
  (presenza, { db with presenze := db.presenze ++ [presenza] })

/-- Shallow embedding of `crud.create_presence_event`.  Returns the persisted
(or pre-existing) row together with the database state after the call; errors
model the raised `HTTPException`s, in which case the transaction leaves the
database unchanged. -/
def create_presence_event (db : Db) (tipo : PresenceEventType)
    (bambino_id dispositivo_id client_event_id : Nat)
    (timestamp_evento : Int) (creato_da : Nat) (now : Int) :
    Except IngestError (Presenza × Db) :=
  match db.presenze.find? (fun p => p.client_event_id == client_event_id) with
  | some existing => .ok (existing, db)
  | none =>
    match db.dispositivi.find? (fun dv => dv.id == dispositivo_id && dv.attivo) with
    | none => .error .dispositivoNotFound
    | some dispositivo =>
      match db.bambini.find? (fun bb =>
          bb.id == bambino_id && bb.sede_id == dispositivo.sede_id && bb.attivo) with
      | none => .error .bambinoNotFound
      | some _ =>
        match latestEvent (pairLog db.presenze bambino_id dispositivo.sede_id) with
        | some latest =>
          if latest.tipo_evento == tipo then .error .consecutiveSameType
          else if tipo == .USCITA && !(latest.tipo_evento == .ENTRATA) then
            .error .uscitaSenzaEntrata
          else .ok (persistEvent db dispositivo.sede_id tipo bambino_id
            dispositivo_id client_event_id timestamp_evento creato_da now)
        | none =>
          if tipo == .USCITA then .error .uscitaSenzaEntrata
          else .ok (persistEvent db dispositivo.sede_id tipo bambino_id
            dispositivo_id client_event_id timestamp_evento creato_da now)

/-- One event of the `/sync` request body (`PresenceEventIn` in `schemas.py`):
`tipo_evento` is optional and defaults to `None`. -/
structure SyncEventIn where
  bambino_id : Nat
  dispositivo_id : Nat
  client_event_id : Nat
  tipo_evento : Option PresenceEventType
  timestamp_evento : Int
deriving DecidableEq, Repr

/-- Shallow embedding of the `/sync` endpoint in `main.py`: per-event ingestion
with `tipo_evento or ENTRATA` defaulting; a raised `HTTPException` increments
`skipped` and leaves the database as it was, without aborting the batch.
Returns `((accepted, skipped), db)`. -/
def sync (db : Db) (eventi : List SyncEventIn) (user now : Int) : (Nat × Nat) × Db :=
  eventi.foldl
    (fun acc event =>
      let tipo_evento := event.tipo_evento.getD .ENTRATA
      match create_presence_event acc.2 tipo_evento event.bambino_id
          event.dispositivo_id event.client_event_id event.timestamp_evento
          user.toNat now with
      | .ok (_, db2) => ((acc.1.1 + 1, acc.1.2), db2)
      | .error _ => ((acc.1.1, acc.1.2 + 1), acc.2))
    ((0, 0), db)

/-- Result record of `compute_presence_summary` (the Python function returns the
same four values as a tuple). -/
structure SummaryOut where
  ingresso : Option Int
  uscita : Option Int
  total_seconds : Int
  open_entry : Option Int
deriving DecidableEq, Repr

/-- One step of the walk inside `compute_presence_summary`: the accumulator is
`(total_seconds, open_entry)`. -/
def summaryStep (period_start : Int) (acc : Int × Option Int) (ev : Presenza) :
    Int × Option Int :=
  match ev.tipo_evento with
  | .ENTRATA => (acc.1, some (max ev.timestamp_evento period_start))
  | .USCITA =>
    match acc.2 with
    | some oe =>
      (if ev.timestamp_evento > oe then acc.1 + (ev.timestamp_evento - oe) else acc.1,
       none)
    | none => acc

/-- Shallow embedding of `main.compute_presence_summary`.  `events` is the
child's event list sorted ascending by `timestamp_evento` (as fetched by the
callers); `now` stands for `datetime.now(timezone.utc)`. -/
def compute_presence_summary (events : List Presenza)
    (period_start period_end now : Int) : SummaryOut :=
  if events.isEmpty then ⟨none, none, 0, none⟩
  else
    let ingresso :=
      (events.find? (fun ev => ev.tipo_evento == .ENTRATA)).map (·.timestamp_evento)
    let uscita :=
      (events.reverse.find? (fun ev => ev.tipo_evento == .USCITA)).map (·.timestamp_evento)
    let walk := events.foldl (summaryStep period_start) (0, none)
    let total :=
      match walk.2 with
      | some oe =>
        let cutoff := min now period_end
        if cutoff > oe then walk.1 + (cutoff - oe) else walk.1
      | none => walk.1
    ⟨ingresso, uscita, total, walk.2⟩

/-- One submission to `create_presence_event`, as made by the HTTP endpoints:
everything the server call receives, plus the wall clock at receipt. -/
structure Submission where
  tipo : PresenceEventType
  bambino_id : Nat
  dispositivo_id : Nat
  client_event_id : Nat
  timestamp_evento : Int
  creato_da : Nat
  now : Int
deriving DecidableEq, Repr

/-- The database after one request: an accepted event commits the new state, a
raised `HTTPException` rolls back to the previous one. -/
def applyIngest (db : Db) (sub : Submission) : Db :=
  match create_presence_event db sub.tipo sub.bambino_id sub.dispositivo_id
      sub.client_event_id sub.timestamp_evento sub.creato_da sub.now with
  | .ok (_, db2) => db2
  | .error _ => db

/-- The database after a sequence of independent requests, in arrival order. -/
def runIngest (db : Db) (subs : List Submission) : Db :=
  subs.foldl applyIngest db

/-- Insert an event into a list sorted ascending by `timestamp_evento`. -/
def insertByTime (p : Presenza) : List Presenza → List Presenza
  | [] => [p]
  | q :: qs =>
    if p.timestamp_evento ≤ q.timestamp_evento then p :: q :: qs
    else q :: insertByTime p qs

/-- Sort an event list ascending by `timestamp_evento` (the spec's "ordered by
`eventTime`" view of a stored log). -/
def sortByTime : List Presenza → List Presenza
  | [] => []
  | p :: ps => insertByTime p (sortByTime ps)

/-- Predicate `alternatesFrom e l`: `l` strictly alternates between the two
event types, starting with `e`. -/
def alternatesFrom : PresenceEventType → List PresenceEventType → Bool
  | _, [] => true
  | e, t :: ts => t == e && alternatesFrom e.flip ts

/-- Closed-intervals component of the walk in `compute_presence_summary`: the
seconds accumulated from CHECK_IN/CHECK_OUT pairs only. -/
def closed_duration_seconds (events : List Presenza) (period_start : Int) : Int :=
  (events.foldl (summaryStep period_start) (0, none)).1

/-- Live component of the walk in `compute_presence_summary`: the seconds
contributed by a still-open entry, capped at `min now period_end`. -/
def live_duration_seconds (events : List Presenza) (period_start period_end now : Int) : Int :=
  match (events.foldl (summaryStep period_start) (0, none)).2 with
  | some oe => if min now period_end > oe then min now period_end - oe else 0
  | none => 0

/-- A row of the client-local `pending_events` table (`local_store.py`). -/
structure PendingRow where
  client_event_id : Nat
  bambino_id : Nat
  dispositivo_id : Nat
  tipo_evento : PresenceEventType
  timestamp_evento : Int
  error_message : Option String
  last_try_at : Option Int
deriving DecidableEq, Repr

/-- The payload built by `MainWindow._submit_presence_event`. -/
structure EventPayload where
  client_event_id : Nat
  bambino_id : Nat
  dispositivo_id : Nat
  tipo_evento : PresenceEventType
  timestamp_evento : Int
deriving DecidableEq, Repr

/-- Model of `LocalStore.enqueue_event`: `INSERT OR IGNORE` keyed on the unique
`client_event_id`; the new row starts with no error and no attempt time. -/
def enqueue_event (store : List PendingRow) (ev : EventPayload) : List PendingRow :=
  if store.any (fun r => r.client_event_id == ev.client_event_id) then store
  else store ++ [⟨ev.client_event_id, ev.bambino_id, ev.dispositivo_id,
    ev.tipo_evento, ev.timestamp_evento, none, none⟩]

/-- Python's `error_message[:400]`: keep at most the first 400 characters. -/
def truncateError (s : String) : String := (s.data.take 400).asString

/-- Model of `LocalStore.mark_event_error`: record the error text (truncated to 400
characters) and the attempt time on every row with this key. -/
def mark_event_error (store : List PendingRow) (client_event_id : Nat)
    (error_message : String) (now : Int) : List PendingRow :=
  store.map (fun r =>
    if r.client_event_id == client_event_id then
      { r with error_message := some (truncateError error_message), last_try_at := some now }
    else r)

/-- Model of `LocalStore.remove_events`: delete the rows whose key is listed. -/
def remove_events (store : List PendingRow) (client_event_ids : List Nat) :
    List PendingRow :=
  store.filter (fun r => !(client_event_ids.contains r.client_event_id))

/-- Model of `LocalStore.list_pending_events`: rows in insertion order, bounded. -/
def list_pending_events (store : List PendingRow) (limit : Nat) : List PendingRow :=
  store.take limit

/-- An `httpx.HTTPError` as observed by the client: either a response with an
error HTTP status (raised by `raise_for_status`, e.g. 401/403/400/500) or a
transport-level failure; `text` models `str(exc)`. -/
inductive HttpFailure where
  | statusError (code : Nat) (msg : String)
  | transportError (msg : String)
deriving DecidableEq, Repr

/-- The text `str(exc)` of an `httpx.HTTPError`. -/
def HttpFailure.text : HttpFailure → String
  | .statusError _ msg => msg
  | .transportError msg => msg

/-- Shallow embedding of the queue effect of `MainWindow._submit_presence_event`:
`result` is the outcome of `ApiClient.submit_presence_event` (which calls
`raise_for_status`).  On success the queue is untouched; on any
`httpx.HTTPError` the payload is enqueued and its error recorded. -/
def submit_inline (store : List PendingRow) (payload : EventPayload)
    (result : Except HttpFailure Unit) (now : Int) : List PendingRow :=
  match result with
  | .ok _ => store
  | .error exc =>
    mark_event_error (enqueue_event store payload) payload.client_event_id exc.text now

/-- Shallow embedding of the queue effect of `MainWindow._sync_pending`:
`reply` is the outcome of `ApiClient.sync_events` on the batch
`store.take limit`.  On success the first `accepted + skipped` batch keys are
removed; on any `httpx.HTTPError` every batch member is marked with the error. -/
def sync_pending (store : List PendingRow) (limit : Nat)
    (reply : Except HttpFailure (Nat × Nat)) (now : Int) : List PendingRow :=
  let pending := list_pending_events store limit
  if pending.isEmpty then store
  else
    match reply with
    | .ok counts =>
      remove_events store ((pending.map (·.client_event_id)).take (counts.1 + counts.2))
    | .error exc =>
      pending.foldl (fun s row => mark_event_error s row.client_event_id exc.text now) store

/-- An event list strictly sorted ascending by `timestamp_evento`. -/
def timeSorted (l : List Presenza) : Prop :=
  l.Pairwise (fun p q => p.timestamp_evento < q.timestamp_evento)

/-- The per-(child, site) invariant the spec asks of the accepted log: stored
in strictly increasing `eventTime` order, and strictly alternating starting
with CHECK_IN. -/
def PairInv (l : List Presenza) : Prop :=
  timeSorted l ∧ alternatesFrom .ENTRATA (l.map Presenza.tipo_evento) = true

/-- The database-wide invariant: `PairInv` for every (child, site) pair. -/
def DbInv (db : Db) : Prop := ∀ b s, PairInv (pairLog db.presenze b s)

/-- Submissions to `runIngest` whose event timestamps strictly increase in
arrival order (in-order arrival). -/
def ArrivalMono (subs : List Submission) : Prop :=
  subs.Pairwise (fun a b => a.timestamp_evento < b.timestamp_evento)

/-- A site with one active device and one active child, empty event log. -/
def exDb : Db := ⟨[⟨1, 1, true⟩], [⟨1, 1, true⟩], []⟩

/-- Day-period fixture: CHECK_IN at 08:00 (28800 s) and CHECK_OUT at 12:30
(45000 s), both inside the day `[0, 86400)`. -/
def c4Events : List Presenza :=
  [⟨1, 1, 1, .ENTRATA, 28800, 9, 1, 99⟩, ⟨1, 1, 1, .USCITA, 45000, 9, 2, 99⟩]

/-- A closed interval `[100, 200]` followed by a still-open CHECK_IN at 300. -/
def c5Events : List Presenza :=
  [⟨1, 1, 1, .ENTRATA, 100, 9, 1, 99⟩, ⟨1, 1, 1, .USCITA, 200, 9, 2, 99⟩,
   ⟨1, 1, 1, .ENTRATA, 300, 9, 3, 99⟩]

/-- Sync batch of five events for the child of `exDb`: events 2 and 4 violate
alternation (consecutive same type by `eventTime`), the others are valid. -/
def c6Batch : List SyncEventIn :=
  [⟨1, 1, 1, some .ENTRATA, 10⟩,
   ⟨1, 1, 2, some .ENTRATA, 20⟩,
   ⟨1, 1, 3, some .USCITA, 30⟩,
   ⟨1, 1, 4, some .USCITA, 40⟩,
   ⟨1, 1, 5, some .ENTRATA, 50⟩]

/-- Out-of-order arrival: a CHECK_IN with `eventTime = 10` arrives first, then
a CHECK_OUT whose `eventTime = 5` precedes it. -/
def c1Subs : List Submission :=
  [⟨.ENTRATA, 1, 1, 1, 10, 9, 99⟩, ⟨.USCITA, 1, 1, 2, 5, 9, 99⟩]

/-- In-order arrival of a CHECK_IN then a later CHECK_OUT. -/
def c1WSubs : List Submission :=
  [⟨.ENTRATA, 1, 1, 1, 10, 9, 99⟩, ⟨.USCITA, 1, 1, 2, 20, 9, 99⟩]

/-- The database produced by a first accepted CHECK_IN on `exDb`. -/
def c2P : Presenza := ⟨1, 1, 1, .ENTRATA, 10, 9, 1, 99⟩

/-- The state of `exDb` after persisting `c2P`. -/
def c2Db1 : Db := ⟨[⟨1, 1, true⟩], [⟨1, 1, true⟩], [c2P]⟩

/-- A pending queue of three rows; with `limit = 2` the flushed batch is the
first two. -/
def c7Store : List PendingRow :=
  [⟨1, 1, 1, .ENTRATA, 10, none, none⟩,
   ⟨2, 1, 1, .USCITA, 20, none, none⟩,
   ⟨3, 1, 1, .ENTRATA, 30, none, none⟩]

/-- Claim C4: for a day log with exactly CHECK_IN at 08:00 and CHECK_OUT at
12:30, the day-anchored projection returns 16200 total seconds and a null
open-entry result (child not inside). -/
theorem c4_duration_correctness :
    compute_presence_summary c4Events 0 86400 50000
      = ⟨some 28800, some 45000, 16200, none⟩ := by decide

/-- The first component of the summary walk never decreases below a
non-negative start. -/
theorem summaryWalk_fst_nonneg (events : List Presenza) (period_start : Int) :
    ∀ acc : Int × Option Int, 0 ≤ acc.1 →
      0 ≤ (events.foldl (summaryStep period_start) acc).1 := by
  induction events with
  | nil => intro acc h; simpa using h
  | cons ev evs ih =>
    intro acc h
    rw [List.foldl_cons]
    apply ih
    unfold summaryStep
    cases ev.tipo_evento with
    | ENTRATA => simpa using h
    | USCITA =>
      cases hacc : acc.2 with
      | none => simpa using h
      | some oe =>
        simp only
        split <;> omega

/-- The projection's total is the sum of the closed and the live components. -/
theorem total_eq_closed_add_live (events : List Presenza)
    (period_start period_end now : Int) :
    (compute_presence_summary events period_start period_end now).total_seconds
      = closed_duration_seconds events period_start
        + live_duration_seconds events period_start period_end now := by
  unfold compute_presence_summary closed_duration_seconds live_duration_seconds
  split
  · rename_i hempty
    rw [List.isEmpty_iff] at hempty
    subst hempty
    simp
  · simp only
    cases hw : (events.foldl (summaryStep period_start) (0, none)).2 with
    | none => simp [hw]
    | some oe =>
      simp only [hw]
      split <;> rename_i hcut
      · rfl
      · exact (add_zero _).symm

/-- The live component of the walk is never negative. -/
theorem live_duration_seconds_nonneg (events : List Presenza)
    (period_start period_end now : Int) :
    0 ≤ live_duration_seconds events period_start period_end now := by
  unfold live_duration_seconds
  cases (events.foldl (summaryStep period_start) (0, none)).2 with
  | none => exact le_refl 0
  | some oe =>
    simp only
    split <;> rename_i hcut
    · exact sub_nonneg.mpr (le_of_lt hcut)
    · exact le_refl 0

/-- Claim C10: the total-seconds output of the projection is never negative. -/
theorem c10_total_nonneg (events : List Presenza) (period_start period_end now : Int) :
    0 ≤ (compute_presence_summary events period_start period_end now).total_seconds := by
  rw [total_eq_closed_add_live]
  exact add_nonneg
    (summaryWalk_fst_nonneg events period_start (0, none) (le_refl 0))
    (live_duration_seconds_nonneg events period_start period_end now)

/-- Claim C5 (amended): the projection's single `total_seconds` output is the
sum of the closed component and the live (still-open, capped at
`min now period_end`) component; the two are not returned separately. -/
theorem c5_total_is_closed_plus_live (events : List Presenza)
    (period_start period_end now : Int) :
    (compute_presence_summary events period_start period_end now).total_seconds
      = closed_duration_seconds events period_start
        + live_duration_seconds events period_start period_end now :=
  total_eq_closed_add_live events period_start period_end now

/-- Claim C5 counterexample: on a log with a closed interval of 100 s and an
entry still open since 300 (with `now = 450`), the projection returns a single
total of 250 s — the live 150 s are merged into the same component as the
closed 100 s, not kept separate. -/
theorem c5_counterexample :
    compute_presence_summary c5Events 0 1000 450 = ⟨some 100, some 200, 250, some 300⟩ ∧
    closed_duration_seconds c5Events 0 = 100 ∧
    (compute_presence_summary c5Events 0 1000 450).total_seconds
      ≠ closed_duration_seconds c5Events 0 := by decide

/-- Claim C6 counterexample: the batch of five (three valid, two violating
alternation) yields `accepted = 3, skipped = 2`, but the clientEventIds of the
two rejected events (2 and 4) are not known to the server afterwards — no row
records them. -/
theorem c6_counterexample :
    (sync exDb c6Batch 9 100).1 = (3, 2) ∧
    ((sync exDb c6Batch 9 100).2.presenze.find? (fun p => p.client_event_id == 2)) = none ∧
    ((sync exDb c6Batch 9 100).2.presenze.find? (fun p => p.client_event_id == 4)) = none := by
  decide

/-- Claim C6 (amended): the batch yields `accepted = 3, skipped = 2`, a
rejection does not abort the rest (clientEventIds 1, 3, 5 are all persisted,
in order), and resubmitting already-accepted events counts them as accepted —
`(2, 0)` — with no new rows; the two rejected events leave no record. -/
theorem c6_batch_accounting :
    (sync exDb c6Batch 9 100).1 = (3, 2) ∧
    ((sync exDb c6Batch 9 100).2.presenze.map (·.client_event_id)) = [1, 3, 5] ∧
    sync (sync exDb c6Batch 9 100).2
        [⟨1, 1, 1, some .ENTRATA, 10⟩, ⟨1, 1, 3, some .USCITA, 30⟩] 9 100
      = ((2, 0), (sync exDb c6Batch 9 100).2) := by decide

/-- Claim C9: a `/sync` batch event with a missing (`None`) type is processed
exactly as if its type were CHECK_IN — the default applies before validation
and persistence — and in a valid context it is accepted and persisted as
ENTRATA rather than rejected. -/
theorem c9_missing_type_defaults_entrata :
    (∀ (db : Db) (ev : SyncEventIn) (evs : List SyncEventIn) (user now : Int),
      sync db ({ ev with tipo_evento := none } :: evs) user now
        = sync db ({ ev with tipo_evento := some .ENTRATA } :: evs) user now) ∧
    (sync exDb [⟨1, 1, 1, none, 10⟩] 9 99).1 = (1, 0) ∧
    ((sync exDb [⟨1, 1, 1, none, 10⟩] 9 99).2.presenze.map
        (fun p => (p.client_event_id, p.tipo_evento))) = [(1, .ENTRATA)] := by
  refine ⟨?_, by decide, by decide⟩
  intro db ev evs user now
  rfl

/-- Lookup with `find?` skips a prefix in which nothing matches. -/
theorem find?_append_of_none {α} (l₁ l₂ : List α) (f : α → Bool)
    (h : l₁.find? f = none) : (l₁ ++ l₂).find? f = l₂.find? f := by
  rw [List.find?_append, h]
  rfl

/-- After a successful ingestion, the idempotency lookup on the resulting
database finds exactly the returned row. -/
theorem create_ok_find {db : Db} {tipo : PresenceEventType} {b d c : Nat}
    {t : Int} {u : Nat} {now : Int} {p : Presenza} {db₂ : Db}
    (h : create_presence_event db tipo b d c t u now = .ok (p, db₂)) :
    db₂.presenze.find? (fun q => q.client_event_id == c) = some p := by
  have hpersist : ∀ s : Nat,
      Except.ok (ε := IngestError) (persistEvent db s tipo b d c t u now) = .ok (p, db₂) →
      db.presenze.find? (fun q => q.client_event_id == c) = none →
      db₂.presenze.find? (fun q => q.client_event_id == c) = some p := by
    intro s hok hfind
    simp only [Except.ok.injEq] at hok
    have hp : (persistEvent db s tipo b d c t u now).1 = p := by rw [hok]
    have hdb2 : (persistEvent db s tipo b d c t u now).2 = db₂ := by rw [hok]
    have hdb : db₂.presenze
        = db.presenze ++ [(persistEvent db s tipo b d c t u now).1] := by
      rw [← hdb2]
      rfl
    rw [hdb, find?_append_of_none _ _ _ hfind, hp]
    have hc : p.client_event_id = c := by
      rw [← hp]
      rfl
    simp [List.find?, hc]
  unfold create_presence_event at h
  split at h
  · rename_i existing hfind
    simp only [Except.ok.injEq, Prod.mk.injEq] at h
    rw [← h.2, ← h.1]
    exact hfind
  · rename_i hfind
    split at h
    · simp at h
    · rename_i dispositivo hdev
      split at h
      · simp at h
      · rename_i child hbb
        split at h
        · rename_i latest hlat
          split at h
          · simp at h
          · split at h
            · simp at h
            · exact hpersist dispositivo.sede_id h hfind
        · rename_i hlat
          split at h
          · simp at h
          · exact hpersist dispositivo.sede_id h hfind

/-- Claim C2: a retry carrying an already-recorded `clientEventId` returns the
originally persisted event unchanged and leaves the database as it is, with no
second insertion and no validation — for any payload the retry carries. -/
theorem c2_idempotent_retry (db : Db) (tipo : PresenceEventType) (b d c : Nat)
    (t : Int) (u : Nat) (now : Int) (p : Presenza) (db₂ : Db)
    (tipo' : PresenceEventType) (b' d' : Nat) (t' : Int) (u' : Nat) (now' : Int)
    (h : create_presence_event db tipo b d c t u now = .ok (p, db₂)) :
    create_presence_event db₂ tipo' b' d' c t' u' now' = .ok (p, db₂) := by
  have hf := create_ok_find h
  unfold create_presence_event
  rw [hf]

/-- Witness for C2: accept a CHECK_IN, then retry `clientEventId = 1` with a
different type, child, device and timestamp — the retry still returns the
original row and the unchanged database. -/
theorem c2_idempotent_retry_witness :
    create_presence_event exDb .ENTRATA 1 1 1 10 9 99 = .ok (c2P, c2Db1) ∧
    create_presence_event c2Db1 .USCITA 2 3 1 77 8 50 = .ok (c2P, c2Db1) :=
  ⟨by rfl,
   c2_idempotent_retry exDb .ENTRATA 1 1 1 10 9 99 c2P c2Db1 .USCITA 2 3 77 8 50
     (by rfl)⟩

/-- Claim C3: when the most recent event (by `eventTime`) for a child and site
is a CHECK_IN, a fresh second CHECK_IN is rejected with the sequence-violation
error (HTTP 400) and the request leaves the stored event log exactly as it
was. -/
theorem c3_double_checkin_rejected (db : Db) (dev : Dispositivo) (child : Bambino)
    (b d c : Nat) (t : Int) (u : Nat) (now : Int) (latest : Presenza)
    (hc : db.presenze.find? (fun q => q.client_event_id == c) = none)
    (hd : db.dispositivi.find? (fun dv => dv.id == d && dv.attivo) = some dev)
    (hb : db.bambini.find? (fun bb =>
        bb.id == b && bb.sede_id == dev.sede_id && bb.attivo) = some child)
    (hl : latestEvent (pairLog db.presenze b dev.sede_id) = some latest)
    (ht : latest.tipo_evento = .ENTRATA) :
    create_presence_event db .ENTRATA b d c t u now = .error .consecutiveSameType ∧
    IngestError.status .consecutiveSameType = 400 ∧
    applyIngest db ⟨.ENTRATA, b, d, c, t, u, now⟩ = db := by
  have hmain : create_presence_event db .ENTRATA b d c t u now
      = .error .consecutiveSameType := by
    unfold create_presence_event
    simp only [hc, hd, hb, hl, ht]
    simp
  refine ⟨hmain, rfl, ?_⟩
  simp [applyIngest, hmain]

/-- Witness for C3: on the database holding a single CHECK_IN for child 1 at
site 1, a second CHECK_IN with fresh `clientEventId = 2` returns the
sequence-violation error and changes nothing. -/
theorem c3_double_checkin_rejected_witness :
    c2Db1.presenze.find? (fun q => q.client_event_id == 2) = none ∧
    create_presence_event c2Db1 .ENTRATA 1 1 2 30000 9 100
      = .error .consecutiveSameType ∧
    IngestError.status .consecutiveSameType = 400 ∧
    applyIngest c2Db1 ⟨.ENTRATA, 1, 1, 2, 30000, 9, 100⟩ = c2Db1 :=
  ⟨by decide,
   c3_double_checkin_rejected c2Db1 ⟨1, 1, true⟩ ⟨1, 1, true⟩ 1 1 2 30000 9 100 c2P
     (by decide) (by decide) (by decide) (by decide) (by decide)⟩

/-- Folding `mark_event_error` over a batch marks exactly the rows whose key
occurs in the batch, leaving every other row untouched. -/
theorem foldl_mark_eq (rows : List PendingRow) (store : List PendingRow)
    (msg : String) (now : Int) :
    rows.foldl (fun s row => mark_event_error s row.client_event_id msg now) store
      = store.map (fun r =>
          if r.client_event_id ∈ rows.map (·.client_event_id) then
            { r with error_message := some (truncateError msg), last_try_at := some now }
          else r) := by
  induction rows generalizing store with
  | nil => simp
  | cons row rows ih =>
    rw [List.foldl_cons, ih]
    unfold mark_event_error
    rw [List.map_map]
    apply List.map_congr_left
    intro r _
    simp only [Function.comp]
    by_cases h1 : r.client_event_id = row.client_event_id
    · have hb : (r.client_event_id == row.client_event_id) = true := by
        exact beq_iff_eq.mpr h1
      simp only [hb, if_true, List.map_cons, List.mem_cons]
      by_cases h2 : r.client_event_id ∈ rows.map (·.client_event_id)
      · simp [h1, h2]
      · simp [h1, h2]
    · have hb : (r.client_event_id == row.client_event_id) = false := by
        exact beq_eq_false_iff_ne.mpr h1
      simp only [hb, Bool.false_eq_true, if_false, List.map_cons, List.mem_cons]
      by_cases h2 : r.client_event_id ∈ rows.map (·.client_event_id)
      · simp [h1, h2]
      · simp [h1, h2]

/-- Claim C7: when `accepted + skipped` equals the submitted batch size, the
flush removes every member of the batch from the pending queue (and only
those); on a transport failure nothing is removed and every batch member gets
the error text and attempt time recorded. -/
theorem c7_flush_atomicity (store : List PendingRow) (limit accepted skipped : Nat)
    (exc : HttpFailure) (now : Int)
    (hfull : accepted + skipped = (list_pending_events store limit).length) :
    (∀ r ∈ sync_pending store limit (.ok (accepted, skipped)) now,
        r.client_event_id ∉ (list_pending_events store limit).map (·.client_event_id)) ∧
    (∀ r ∈ store,
        r.client_event_id ∉ (list_pending_events store limit).map (·.client_event_id) →
        r ∈ sync_pending store limit (.ok (accepted, skipped)) now) ∧
    ((sync_pending store limit (.error exc) now).map (·.client_event_id)
        = store.map (·.client_event_id)) ∧
    (∀ r ∈ sync_pending store limit (.error exc) now,
        r.client_event_id ∈ (list_pending_events store limit).map (·.client_event_id) →
        r.error_message = some (truncateError exc.text) ∧ r.last_try_at = some now) := by
  by_cases hpe : (list_pending_events store limit).isEmpty = true
  · rw [List.isEmpty_iff] at hpe
    have hres1 : sync_pending store limit (.ok (accepted, skipped)) now = store := by
      unfold sync_pending
      rw [hpe]
      rfl
    have hres2 : sync_pending store limit (.error exc) now = store := by
      unfold sync_pending
      rw [hpe]
      rfl
    refine ⟨?_, ?_, ?_, ?_⟩
    · intro r _
      rw [hpe]
      simp
    · intro r hr _
      rw [hres1]
      exact hr
    · rw [hres2]
    · intro r _ hmem
      rw [hpe] at hmem
      simp at hmem
  · have hok : sync_pending store limit (.ok (accepted, skipped)) now
        = remove_events store ((list_pending_events store limit).map (·.client_event_id)) := by
      unfold sync_pending
      rw [if_neg hpe]
      have hlen : ((list_pending_events store limit).map (·.client_event_id)).length
          = accepted + skipped := by
        rw [List.length_map, ← hfull]
      show remove_events store
          (((list_pending_events store limit).map (·.client_event_id)).take
            (accepted + skipped)) = _
      rw [← hlen, List.take_length]
    have herr : sync_pending store limit (.error exc) now
        = store.map (fun r =>
            if r.client_event_id
                ∈ (list_pending_events store limit).map (·.client_event_id) then
              { r with error_message := some (truncateError exc.text), last_try_at := some now }
            else r) := by
      unfold sync_pending
      rw [if_neg hpe]
      exact foldl_mark_eq (list_pending_events store limit) store exc.text now
    refine ⟨?_, ?_, ?_, ?_⟩
    · intro r hr
      rw [hok] at hr
      unfold remove_events at hr
      have := (List.mem_filter.mp hr).2
      simp only [Bool.not_eq_eq_eq_not, Bool.not_true] at this
      intro hmem
      rw [List.contains_eq_any_beq] at this
      have hany : ((list_pending_events store limit).map (·.client_event_id)).any
          (fun x => r.client_event_id == x) = true := by
        refine List.any_eq_true.mpr ⟨r.client_event_id, hmem, ?_⟩
        exact beq_self_eq_true _
      rw [hany] at this
      cases this
    · intro r hr hnmem
      rw [hok]
      unfold remove_events
      refine List.mem_filter.mpr ⟨hr, ?_⟩
      simp only [Bool.not_eq_eq_eq_not, Bool.not_true]
      rw [List.contains_eq_any_beq]
      by_contra hcontra
      simp only [Bool.not_eq_false] at hcontra
      obtain ⟨x, hx, hbeq⟩ := List.any_eq_true.mp hcontra
      rw [beq_iff_eq] at hbeq
      rw [← hbeq] at hx
      exact hnmem hx
    · rw [herr, List.map_map]
      apply List.map_congr_left
      intro r _
      simp only [Function.comp]
      split <;> rfl
    · intro r hr hmem
      rw [herr] at hr
      obtain ⟨r0, hr0, hr0eq⟩ := List.mem_map.mp hr
      by_cases hcond : r0.client_event_id
          ∈ (list_pending_events store limit).map (·.client_event_id)
      · rw [if_pos hcond] at hr0eq
        rw [← hr0eq]
        exact ⟨rfl, rfl⟩
      · rw [if_neg hcond] at hr0eq
        rw [← hr0eq] at hmem
        exact absurd hmem hcond

/-- Witness for C7: flushing the two-row batch with a reply of
`accepted = 1, skipped = 1` removes exactly the batch; a transport failure
removes nothing and marks both batch members. -/
theorem c7_flush_atomicity_witness :
    (∀ r ∈ sync_pending c7Store 2 (.ok (1, 1)) 5,
        r.client_event_id ∉ (list_pending_events c7Store 2).map (·.client_event_id)) ∧
    (∀ r ∈ c7Store,
        r.client_event_id ∉ (list_pending_events c7Store 2).map (·.client_event_id) →
        r ∈ sync_pending c7Store 2 (.ok (1, 1)) 5) ∧
    ((sync_pending c7Store 2 (.error (.transportError "net")) 5).map (·.client_event_id)
        = c7Store.map (·.client_event_id)) ∧
    (∀ r ∈ sync_pending c7Store 2 (.error (.transportError "net")) 5,
        r.client_event_id ∈ (list_pending_events c7Store 2).map (·.client_event_id) →
        r.error_message = some (truncateError (HttpFailure.transportError "net").text) ∧
        r.last_try_at = some 5) :=
  c7_flush_atomicity c7Store 2 1 1 (.transportError "net") 5 (by decide)

/-- Enqueueing guarantees some row carries the payload's key. -/
theorem enqueue_event_mem (store : List PendingRow) (ev : EventPayload) :
    ∃ r ∈ enqueue_event store ev, r.client_event_id = ev.client_event_id := by
  unfold enqueue_event
  split <;> rename_i h
  · obtain ⟨r0, hr0, hb⟩ := List.any_eq_true.mp h
    exact ⟨r0, hr0, beq_iff_eq.mp hb⟩
  · refine ⟨⟨ev.client_event_id, ev.bambino_id, ev.dispositivo_id,
      ev.tipo_evento, ev.timestamp_evento, none, none⟩, ?_, rfl⟩
    exact List.mem_append_right _ (List.mem_singleton.mpr rfl)

/-- Claim C8 (amended): every `httpx.HTTPError` — including an HTTP 401/403
status error raised by `raise_for_status` — is caught by the inline submit,
which then enqueues the event and records the error text and attempt time on
its queue row; authentication errors are not treated differently from
transient failures. -/
theorem c8_http_error_enqueues (store : List PendingRow) (payload : EventPayload)
    (code : Nat) (msg : String) (now : Int) :
    ∃ r ∈ submit_inline store payload (.error (.statusError code msg)) now,
      r.client_event_id = payload.client_event_id ∧
      r.error_message = some (truncateError msg) ∧
      r.last_try_at = some now := by
  obtain ⟨r0, hr0, hcid⟩ := enqueue_event_mem store payload
  have hb : (r0.client_event_id == payload.client_event_id) = true :=
    beq_iff_eq.mpr hcid
  have hres : submit_inline store payload (.error (.statusError code msg)) now
      = mark_event_error (enqueue_event store payload)
          payload.client_event_id msg now := rfl
  rw [hres]
  unfold mark_event_error
  refine ⟨{ r0 with error_message := some (truncateError msg), last_try_at := some now },
    List.mem_map.mpr ⟨r0, hr0, ?_⟩, hcid, rfl, rfl⟩
  simp [hb]

/-- Claim C8 counterexample: an inline submit failing with HTTP 401 (an
authentication error raised by `raise_for_status`) enqueues the event — the
previously empty pending queue afterwards holds the payload with the error
recorded, contradicting "never enqueued". -/
theorem c8_counterexample :
    submit_inline [] ⟨7, 1, 1, .ENTRATA, 10⟩ (.error (.statusError 401 "auth")) 5
      = [⟨7, 1, 1, .ENTRATA, 10, some "auth", some 5⟩] := by decide

/-- The recursive maximum returns an event whenever the list is non-empty. -/
theorem latestEvent_isSome_cons (p : Presenza) (ps : List Presenza) :
    (latestEvent (p :: ps)).isSome = true := by
  rw [latestEvent]
  cases latestEvent ps with
  | none => rfl
  | some q =>
    show (if q.timestamp_evento > p.timestamp_evento then some q else some p).isSome
      = true
    split <;> rfl

/-- Only the empty list has no latest event. -/
theorem eq_nil_of_latestEvent_eq_none (l : List Presenza)
    (h : latestEvent l = none) : l = [] := by
  cases l with
  | nil => rfl
  | cons p ps =>
    have hs := latestEvent_isSome_cons p ps
    rw [h] at hs
    simp at hs

/-- Appending an event later than everything in the list makes it the latest. -/
theorem latestEvent_concat (l : List Presenza) (x : Presenza)
    (h : ∀ p ∈ l, p.timestamp_evento < x.timestamp_evento) :
    latestEvent (l ++ [x]) = some x := by
  induction l with
  | nil => rfl
  | cons p ps ih =>
    rw [List.cons_append]
    rw [latestEvent]
    rw [ih (fun q hq => h q (List.mem_cons_of_mem p hq))]
    have hp := h p (List.mem_cons_self p ps)
    simp [hp]

/-- On a strictly time-sorted list, the latest event is the last one. -/
theorem latestEvent_eq_getLast_of_sorted (l : List Presenza) (h : timeSorted l) :
    latestEvent l = l.getLast? := by
  induction l using List.reverseRecOn with
  | nil => rfl
  | append_singleton l x ih =>
    have hall : ∀ p ∈ l, p.timestamp_evento < x.timestamp_evento := by
      intro p hp
      exact (List.pairwise_append.mp h).2.2 p hp x (List.mem_singleton.mpr rfl)
    rw [latestEvent_concat l x hall, List.getLast?_concat]

/-- In a two-valued enum, a value different from `a` is `a.flip`. -/
theorem flip_of_ne (a b : PresenceEventType) (h : a ≠ b) : b = a.flip := by
  cases a <;> cases b <;> simp_all [PresenceEventType.flip]

/-- Appending the opposite of the last element preserves alternation. -/
theorem alternatesFrom_concat (e x : PresenceEventType) (l : List PresenceEventType)
    (ha : alternatesFrom e l = true) (hl : l.getLast? = some x) :
    alternatesFrom e (l ++ [x.flip]) = true := by
  induction l generalizing e with
  | nil => simp at hl
  | cons t ts ih =>
    rw [alternatesFrom, Bool.and_eq_true] at ha
    obtain ⟨h1, h2⟩ := ha
    cases ts with
    | nil =>
      have hx : x = t := by
        rw [show ([t] : List PresenceEventType).getLast? = some t from rfl] at hl
        exact (Option.some_inj.mp hl).symm
      have he : t = e := beq_iff_eq.mp h1
      subst hx
      subst he
      cases x <;> decide
    | cons t2 ts2 =>
      have hl2 : (t2 :: ts2).getLast? = some x := by
        rw [← hl]
        rfl
      rw [List.cons_append, alternatesFrom]
      rw [Bool.and_eq_true]
      exact ⟨h1, ih e.flip h2 hl2⟩

/-- Sorting a strictly time-sorted list leaves it unchanged. -/
theorem sortByTime_of_sorted (l : List Presenza) (h : timeSorted l) :
    sortByTime l = l := by
  induction l with
  | nil => rfl
  | cons p ps ih =>
    obtain ⟨hhead, htail⟩ := List.pairwise_cons.mp h
    rw [sortByTime, ih htail]
    cases ps with
    | nil => rfl
    | cons q qs =>
      rw [insertByTime, if_pos (le_of_lt (hhead q (List.mem_cons_self q qs)))]

/-- Case analysis for a successful ingestion: either the idempotency lookup
hit (database unchanged) or the validated event was appended, in which case
the checks of `create_presence_event` constrain its type against the latest
prior event of its (child, site) pair. -/
theorem create_ok_insert_cases {db : Db} {tipo : PresenceEventType} {b d c : Nat}
    {t : Int} {u : Nat} {now : Int} {p : Presenza} {db₂ : Db}
    (h : create_presence_event db tipo b d c t u now = .ok (p, db₂)) :
    db₂ = db ∨
    (p.bambino_id = b ∧ p.tipo_evento = tipo ∧ p.timestamp_evento = t ∧
     db₂.presenze = db.presenze ++ [p] ∧
     ((∃ latest, latestEvent (pairLog db.presenze p.bambino_id p.sede_id) = some latest ∧
         latest.tipo_evento ≠ p.tipo_evento) ∨
      (latestEvent (pairLog db.presenze p.bambino_id p.sede_id) = none ∧
       p.tipo_evento = .ENTRATA))) := by
  have hpersist : ∀ s : Nat,
      Except.ok (ε := IngestError) (persistEvent db s tipo b d c t u now) = .ok (p, db₂) →
      p.bambino_id = b ∧ p.sede_id = s ∧ p.tipo_evento = tipo ∧
      p.timestamp_evento = t ∧ db₂.presenze = db.presenze ++ [p] := by
    intro s hok
    simp only [Except.ok.injEq] at hok
    have hp : (persistEvent db s tipo b d c t u now).1 = p := by rw [hok]
    have hdb2 : (persistEvent db s tipo b d c t u now).2 = db₂ := by rw [hok]
    refine ⟨?_, ?_, ?_, ?_, ?_⟩
    · rw [← hp]
      rfl
    · rw [← hp]
      rfl
    · rw [← hp]
      rfl
    · rw [← hp]
      rfl
    · rw [← hdb2, ← hp]
      rfl
  unfold create_presence_event at h
  split at h
  · left
    simp only [Except.ok.injEq, Prod.mk.injEq] at h
    exact h.2.symm
  · rename_i hfind
    split at h
    · simp at h
    · rename_i dispositivo hdev
      split at h
      · simp at h
      · rename_i child hbb
        split at h
        · rename_i latest hlat
          split at h
          · simp at h
          · rename_i hcond1
            split at h
            · simp at h
            · right
              obtain ⟨hb1, hs1, ht1, htt1, hdb1⟩ := hpersist dispositivo.sede_id h
              refine ⟨hb1, ht1, htt1, hdb1, Or.inl ⟨latest, ?_, ?_⟩⟩
              · rw [hb1, hs1]
                exact hlat
              · rw [ht1]
                intro heq
                exact hcond1 (beq_iff_eq.mpr heq)
        · rename_i hlat
          split at h
          · simp at h
          · rename_i hcond
            right
            obtain ⟨hb1, hs1, ht1, htt1, hdb1⟩ := hpersist dispositivo.sede_id h
            refine ⟨hb1, ht1, htt1, hdb1, Or.inr ⟨?_, ?_⟩⟩
            · rw [hb1, hs1]
              exact hlat
            · rw [ht1]
              cases tipo with
              | ENTRATA => rfl
              | USCITA => exact absurd rfl hcond

/-- One request preserves the per-pair invariant when its event timestamp is
later than everything already stored, and the resulting log contains no
timestamp beyond the request's. -/
theorem applyIngest_inv (db : Db) (sub : Submission)
    (hInv : DbInv db)
    (hfresh : ∀ p ∈ db.presenze, p.timestamp_evento < sub.timestamp_evento) :
    DbInv (applyIngest db sub) ∧
    ∀ p ∈ (applyIngest db sub).presenze,
      p.timestamp_evento ≤ sub.timestamp_evento := by
  unfold applyIngest
  cases hres : create_presence_event db sub.tipo sub.bambino_id sub.dispositivo_id
      sub.client_event_id sub.timestamp_evento sub.creato_da sub.now with
  | error e => exact ⟨hInv, fun p hp => le_of_lt (hfresh p hp)⟩
  | ok pr =>
    obtain ⟨p, db₂⟩ := pr
    rcases create_ok_insert_cases hres with hsame | ⟨hb, htipo, ht, hdb, hval⟩
    · rw [hsame]
      exact ⟨hInv, fun q hq => le_of_lt (hfresh q hq)⟩
    · constructor
      · intro b' s'
        unfold pairLog
        rw [hdb, List.filter_append]
        by_cases hmatch : (p.bambino_id == b' && p.sede_id == s') = true
        · rw [Bool.and_eq_true] at hmatch
          have hb' : p.bambino_id = b' := beq_iff_eq.mp hmatch.1
          have hs' : p.sede_id = s' := beq_iff_eq.mp hmatch.2
          subst hb'
          subst hs'
          have hfp : List.filter
              (fun q => q.bambino_id == p.bambino_id && q.sede_id == p.sede_id) [p]
              = [p] := by
            simp
          rw [hfp]
          have hpair := hInv p.bambino_id p.sede_id
          constructor
          · refine List.pairwise_append.mpr ⟨hpair.1, List.pairwise_singleton _ _, ?_⟩
            intro q hq x hx
            rw [List.mem_singleton] at hx
            subst hx
            have hqmem : q ∈ db.presenze := List.mem_of_mem_filter hq
            rw [ht]
            exact hfresh q hqmem
          · rw [List.map_append]
            rcases hval with ⟨latest, hlat, hne⟩ | ⟨hlat, hE⟩
            · have hsorted := hpair.1
              have hgl : (pairLog db.presenze p.bambino_id p.sede_id).getLast?
                  = some latest := by
                rw [← latestEvent_eq_getLast_of_sorted _ hsorted]
                exact hlat
              have hglmap : ((pairLog db.presenze p.bambino_id p.sede_id).map
                  Presenza.tipo_evento).getLast? = some latest.tipo_evento := by
                rw [List.getLast?_map, hgl]
                rfl
              have hflip : p.tipo_evento = latest.tipo_evento.flip :=
                flip_of_ne _ _ hne
              have hmapp : List.map Presenza.tipo_evento [p] = [p.tipo_evento] := rfl
              rw [hmapp, hflip]
              exact alternatesFrom_concat _ _ _ hpair.2 hglmap
            · have hempty : pairLog db.presenze p.bambino_id p.sede_id = [] :=
                eq_nil_of_latestEvent_eq_none _ hlat
              unfold pairLog at hempty
              rw [hempty]
              have hmapp : List.map Presenza.tipo_evento [p] = [p.tipo_evento] := rfl
              simp only [List.map_nil, List.nil_append, hmapp, hE]
              decide
        · have hfp : List.filter (fun q => q.bambino_id == b' && q.sede_id == s') [p]
              = [] := by
            rw [List.filter_cons]
            simp only [hmatch]
            rfl
          rw [hfp, List.append_nil]
          exact hInv b' s'
      · intro q hq
        rw [hdb] at hq
        rcases List.mem_append.mp hq with hold | hnew
        · exact le_of_lt (hfresh q hold)
        · rw [List.mem_singleton] at hnew
          subst hnew
          rw [ht]

/-- Running an in-order trace of requests from an invariant-satisfying state
preserves the invariant. -/
theorem runIngest_inv (subs : List Submission) : ∀ (db : Db),
    DbInv db →
    (∀ sub ∈ subs, ∀ p ∈ db.presenze, p.timestamp_evento < sub.timestamp_evento) →
    ArrivalMono subs →
    DbInv (runIngest db subs) := by
  induction subs with
  | nil => intro db h _ _; exact h
  | cons sub rest ih =>
    intro db hInv hfresh hpair
    obtain ⟨hpairhead, hpairtail⟩ := List.pairwise_cons.mp hpair
    obtain ⟨hInv2, hbound⟩ :=
      applyIngest_inv db sub hInv (hfresh sub (List.mem_cons_self sub rest))
    show DbInv (runIngest (applyIngest db sub) rest)
    refine ih (applyIngest db sub) hInv2 ?_ hpairtail
    intro s' hs' q hq
    exact lt_of_le_of_lt (hbound q hq) (hpairhead s' hs')

/-- Claim C1 (amended): when submissions arrive in strictly increasing
`eventTime` order, the accepted log of every (child, site) pair, ordered by
`eventTime`, strictly alternates starting with CHECK_IN — the sort leaves the
stored log unchanged and the mapped type sequence alternates. -/
theorem c1_alternation_in_order (db : Db) (subs : List Submission)
    (h0 : db.presenze = []) (hmono : ArrivalMono subs) (b s : Nat) :
    sortByTime (pairLog (runIngest db subs).presenze b s)
      = pairLog (runIngest db subs).presenze b s ∧
    alternatesFrom .ENTRATA
      ((sortByTime (pairLog (runIngest db subs).presenze b s)).map
        Presenza.tipo_evento) = true := by
  have hInv0 : DbInv db := by
    intro b' s'
    unfold pairLog
    rw [h0]
    exact ⟨List.Pairwise.nil, rfl⟩
  have hfresh0 : ∀ sub ∈ subs, ∀ p ∈ db.presenze,
      p.timestamp_evento < sub.timestamp_evento := by
    rw [h0]
    intro _ _ p hp
    simp at hp
  obtain ⟨hsorted, halt⟩ := runIngest_inv subs db hInv0 hfresh0 hmono b s
  have hsort := sortByTime_of_sorted _ hsorted
  refine ⟨hsort, ?_⟩
  rw [hsort]
  exact halt

/-- Witness for C1: the in-order trace CHECK_IN@10 then CHECK_OUT@20 yields a
log that is already `eventTime`-sorted and alternates from CHECK_IN. -/
theorem c1_alternation_in_order_witness :
    exDb.presenze = [] ∧
    (sortByTime (pairLog (runIngest exDb c1WSubs).presenze 1 1)
        = pairLog (runIngest exDb c1WSubs).presenze 1 1 ∧
      alternatesFrom .ENTRATA
        ((sortByTime (pairLog (runIngest exDb c1WSubs).presenze 1 1)).map
          Presenza.tipo_evento) = true) :=
  ⟨rfl, c1_alternation_in_order exDb c1WSubs rfl
    (by unfold ArrivalMono c1WSubs; decide) 1 1⟩

/-- Claim C1 counterexample: the ingestion accepts the out-of-order trace
CHECK_IN@10 then CHECK_OUT@5 (both requests are persisted), yet the resulting
(child 1, site 1) log ordered by `eventTime` starts with CHECK_OUT — it does
not alternate starting with CHECK_IN, because validation only consulted the
maximum-`eventTime` prior event. -/
theorem c1_counterexample :
    ((runIngest exDb c1Subs).presenze.map (·.client_event_id)) = [1, 2] ∧
    alternatesFrom .ENTRATA
      ((sortByTime (pairLog (runIngest exDb c1Subs).presenze 1 1)).map
        Presenza.tipo_evento) = false := by decide
